import Mathlib

/-!
Verification of the ConfigDrivenForms repository: a JSON-driven form
generator built from a field-descriptor list.  The source consists of
`src/types/formTypes.ts` (the `Field` record), `src/utils/validationSchema.ts`
(`generateValidationSchema`), `src/hooks/useFormSubmit.ts` (`handleSubmit`),
`src/components/FormField.tsx` (the kind dispatch) and
`src/components/FormGenerator.tsx` (initial values, submit button gating).

The validation rules the descriptors carry (`Yup.AnySchema` in the source)
are opaque values that the code only stores and copies, so the embedding is
parameterised over a type `V` of validation rules.  JavaScript objects used
as string-keyed maps (`shape`, `acc`, Formik's `values`) are embedded as
functions `String → Option α`; an assignment `obj[k] = v` is the pointwise
update that overwrites the previous binding at `k`.
-/

namespace ConfigDrivenForms

/-- `Field` from `src/types/formTypes.ts`: one form-control descriptor.
`validation` holds the opaque per-field rule (`Yup.AnySchema` in the
source), absent when the field declares none. -/
structure Field (V : Type) where
  type : String
  name : String
  label : Option String := none
  value : Option String := none
  options : Option (List String) := none
  validation : Option V := none
  deriving Repr, DecidableEq

/-- A JavaScript object used as a string-keyed map. -/
def JsObject (α : Type) := String → Option α

/-- The empty object `\x7b\x7d`. -/
def JsObject.empty {α : Type} : JsObject α := fun _ => none

/-- `obj[k] = v`: pointwise update, overwriting any previous binding. -/
def JsObject.set {α : Type} (obj : JsObject α) (k : String) (v : α) : JsObject α :=
  fun n => if n = k then some v else obj n

/-- `generateValidationSchema` from `src/utils/validationSchema.ts`:
iterate over the fields, and for each field that declares a `validation`
rule, assign `shape[field.name] = field.validation`.  The resulting
`shape` object is the aggregate validation contract. -/
def generateValidationSchema {V : Type} (fields : List (Field V)) : JsObject V :=
  fields.foldl
    (fun shape field =>
      match field.validation with
      | some v => shape.set field.name v
      | none => shape)
    JsObject.empty

/-- `initialValues` from `src/components/FormGenerator.tsx`:
`fields.reduce((acc, field) => \x7b acc[field.name] = ''; return acc \x7d, \x7b\x7d)`. -/
def initialValues {V : Type} (fields : List (Field V)) : JsObject String :=
  fields.foldl (fun acc field => acc.set field.name "") JsObject.empty

/-- A concrete rendered control, the output of the kind dispatch in
`src/components/FormField.tsx`.  Each constructor records exactly the
props the dispatch passes to the corresponding field component. -/
inductive Rendered where
  | textField (name : String) (label : Option String) (ty : String)
  | checkboxField (name : String) (label : Option String)
  | radioField (name : String) (label : Option String) (options : List String)
  | selectField (name : String) (label : Option String) (options : List String)
  | textAreaField (name : String) (label : Option String)
  deriving Repr, DecidableEq

/-- `FormField` from `src/components/FormField.tsx`: switch on
`field.type`; the `default` branch returns `null`, embedded as `none`.
For `radio` and `select`, `field.options || []` defaults a missing
options list to the empty list. -/
def FormField {V : Type} (field : Field V) : Option Rendered :=
  match field.type with
  | "text" => some (.textField field.name field.label field.type)
  | "password" => some (.textField field.name field.label field.type)
  | "email" => some (.textField field.name field.label field.type)
  | "number" => some (.textField field.name field.label field.type)
  | "checkbox" => some (.checkboxField field.name field.label)
  | "radio" => some (.radioField field.name field.label (field.options.getD []))
  | "select" => some (.selectField field.name field.label (field.options.getD []))
  | "textarea" => some (.textAreaField field.name field.label)
  | _ => none

/-- `FormGenerator` renders the field list with
`jsonData.fields.map((field, index) => <FormField field=... />)`. -/
def renderFields {V : Type} (fields : List (Field V)) : List (Option Rendered) :=
  fields.map FormField

/-- The success message literal set by `handleSubmit` in
`src/hooks/useFormSubmit.ts`. -/
def successText : String := "Form submitted successfully!"

/-- The fixed generic failure message literal set by `handleSubmit` in
`src/hooks/useFormSubmit.ts`. -/
def errorText : String := "Failed to submit the form. Please try again."

/-- The per-form-instance state touched by `useFormSubmit` and Formik:
the current field values, the two message slots of `useFormSubmit`, and
Formik's in-flight flag (`isSubmitting`, released through
`setSubmitting(false)`). -/
structure FormState where
  values : JsObject String
  successMessage : Option String
  errorMessage : Option String
  isSubmitting : Bool

/-- How the awaited external submit callback settles: it resolves, or it
rejects/throws carrying an error detail. -/
inductive SubmitOutcome where
  | resolved
  | rejected (error : String)

/-- `handleSubmit` from `src/hooks/useFormSubmit.ts`, as the state update
performed once the awaited `onSubmit(values)` settles with `outcome`.
On resolution: set the success message, clear the error message, and
`resetForm()` (Formik resets the values to `initialVals`).  On
rejection: set the fixed failure message, clear the success message,
leave the values untouched.  The `finally` block runs
`setSubmitting(false)` on both paths. -/
def handleSubmit (initialVals : JsObject String) (outcome : SubmitOutcome)
    (st : FormState) : FormState :=
  match outcome with
  | .resolved =>
      { st with
        successMessage := some successText
        errorMessage := none
        values := initialVals
        isSubmitting := false }
  | .rejected _ =>
      { st with
        errorMessage := some errorText
        successMessage := none
        isSubmitting := false }

/-- The submit button's `disabled` prop in
`src/components/FormGenerator.tsx`: `isSubmitting || !isValid || !dirty`.
`isValid` is Formik's validity flag against the aggregate validation
contract and `dirty` its changed-from-initial-values flag. -/
def submitDisabled (isSubmitting isValid dirty : Bool) : Bool :=
  isSubmitting || !isValid || !dirty

/-- A click on the submit control: a disabled button fires no submit
event, so the external callback is invoked (with the current values)
exactly when the button is enabled. -/
def submitClick (isSubmitting isValid dirty : Bool) (values : JsObject String) :
    Option (JsObject String) :=
  if submitDisabled isSubmitting isValid dirty then none else some values

/-- An event acting on one form instance: the user edits the values, a
submit attempt starts (Formik raises `isSubmitting`), or the awaited
callback settles (running `handleSubmit`'s update). -/
inductive FormEvent where
  | edit (values : JsObject String)
  | attempt
  | settle (outcome : SubmitOutcome)

/-- The state of a freshly rendered form: initial values, no message in
either slot, no submission in flight. -/
def initState (initialVals : JsObject String) : FormState :=
  { values := initialVals
    successMessage := none
    errorMessage := none
    isSubmitting := false }

/-- One step of the form instance under an event. -/
def stepForm (initialVals : JsObject String) (st : FormState) :
    FormEvent → FormState
  | .edit v => { st with values := v }
  | .attempt => { st with isSubmitting := true }
  | .settle outcome => handleSubmit initialVals outcome st

/-- The state after a sequence of events, starting from the fresh form. -/
def runForm (initialVals : JsObject String) (events : List FormEvent) : FormState :=
  events.foldl (stepForm initialVals) (initState initialVals)

/-- The eight `kind` strings the `FormField` switch recognizes. -/
def knownKinds : List String :=
  ["text", "password", "email", "number", "checkbox", "radio", "select", "textarea"]

/-! ### Concrete descriptors, instantiating the opaque rule type with `Nat`
so that distinct rule objects (the distinct Yup schemas of `src/App.tsx`)
are distinguishable. -/

/-- The `username` descriptor of `src/App.tsx` (rule object numbered 0). -/
def fieldUsername : Field Nat :=
  { type := "text", name := "username", label := some "Username", validation := some 0 }

/-- The `password` descriptor of `src/App.tsx` (rule object numbered 1). -/
def fieldPassword : Field Nat :=
  { type := "password", name := "password", label := some "Password", validation := some 1 }

/-- The `subscribe` descriptor of `src/App.tsx`: a checkbox with no rule. -/
def fieldSubscribe : Field Nat :=
  { type := "checkbox", name := "subscribe", label := some "Subscribe to newsletter" }

/-- The trailing `submit` pseudo-field of `src/App.tsx`'s field list. -/
def fieldSubmitPseudo : Field Nat :=
  { type := "submit", name := "", value := some "Submit" }

/-- A descriptor of unrecognized kind that nevertheless declares a rule. -/
def ghostField : Field Nat :=
  { type := "submit", name := "code", validation := some 7 }

/-- Two descriptors sharing the name `a`, each with its own rule. -/
def dupFieldA : Field Nat := { type := "text", name := "a", validation := some 0 }

/-- Second descriptor named `a`; its rule overwrites `dupFieldA`'s. -/
def dupFieldB : Field Nat := { type := "checkbox", name := "a", validation := some 1 }

/-- A field list with a name collision, in one order. -/
def permCexA : List (Field Nat) := [dupFieldA, dupFieldB]

/-- The same two descriptors in the opposite order. -/
def permCexB : List (Field Nat) := [dupFieldB, dupFieldA]

/-! ### Characterization lemmas for the two fold-built mappings -/

theorem generateValidationSchema_concat {V : Type} (fields : List (Field V)) (f : Field V) :
    generateValidationSchema (fields ++ [f]) =
      match f.validation with
      | some v => (generateValidationSchema fields).set f.name v
      | none => generateValidationSchema fields := by
  cases h : f.validation <;> simp [generateValidationSchema, List.foldl_append, h]

theorem initialValues_concat {V : Type} (fields : List (Field V)) (f : Field V) :
    initialValues (fields ++ [f]) = (initialValues fields).set f.name "" := by
  simp [initialValues, List.foldl_append]

/-- The aggregate contract at a name is the rule of the last descriptor
with that name that declares one. -/
theorem generateValidationSchema_apply {V : Type} (fields : List (Field V)) (n : String) :
    generateValidationSchema fields n =
      ((fields.filter fun f => f.name == n && f.validation.isSome).getLast?).bind
        Field.validation := by
  induction fields using List.reverseRecOn with
  | nil => rfl
  | append_singleton fs f ih =>
      rw [generateValidationSchema_concat]
      cases hv : f.validation with
      | none => simp [List.filter_append, hv, ih]
      | some v =>
          by_cases hn : f.name = n
          · simp [JsObject.set, List.filter_append, hv, hn, List.getLast?_concat]
          · simp [JsObject.set, List.filter_append, hv, hn, ih, Ne.symm hn]

/-- The initial-values mapping binds a name to the empty string exactly
when some descriptor carries that name. -/
theorem initialValues_apply {V : Type} (fields : List (Field V)) (n : String) :
    initialValues fields n =
      if fields.any fun f => f.name == n then some "" else none := by
  induction fields using List.reverseRecOn with
  | nil => rfl
  | append_singleton fs f ih =>
      rw [initialValues_concat]
      by_cases hn : f.name = n
      · simp [JsObject.set, hn]
      · simp [JsObject.set, hn, ih, Ne.symm hn]

/-- The contract has an entry at a name exactly when some descriptor with
that name declares a rule. -/
theorem generateValidationSchema_isSome {V : Type} (fields : List (Field V)) (n : String) :
    (generateValidationSchema fields n).isSome =
      fields.any fun f => f.name == n && f.validation.isSome := by
  induction fields using List.reverseRecOn with
  | nil => rfl
  | append_singleton fs f ih =>
      rw [generateValidationSchema_concat]
      cases hv : f.validation with
      | none => simp [List.any_append, hv, ih]
      | some v =>
          by_cases hn : f.name = n
          · simp [JsObject.set, List.any_append, hv, hn]
          · simp [JsObject.set, List.any_append, hv, hn, ih, Ne.symm hn]

/-- In a list of descriptors with pairwise distinct names, at most one
descriptor matches any given name. -/
theorem length_filter_name_le_one {V : Type} (L : List (Field V)) (n : String)
    (h : L.Pairwise fun f g => f.name ≠ g.name) :
    (L.filter fun f => f.name == n).length ≤ 1 := by
  induction L with
  | nil => simp
  | cons a L ih =>
      rw [List.pairwise_cons] at h
      by_cases ha : a.name = n
      · have hnil : (L.filter fun f => f.name == n) = [] := by
          refine List.filter_eq_nil_iff.mpr fun x hx => ?_
          simp only [beq_iff_eq]
          intro hxn
          exact h.1 x hx (ha.trans hxn.symm)
        simp [List.filter_cons, ha, hnil]
      · simpa [List.filter_cons, ha] using ih h.2

/-- Permutations of lists of length at most one are equal. -/
theorem perm_eq_of_length_le_one {α : Type} {A B : List α}
    (hp : A.Perm B) (hl : A.length ≤ 1) : A = B := by
  match A, hp, hl with
  | [], hp, _ => exact (hp.symm.eq_nil).symm
  | [a], hp, _ => exact (List.perm_singleton.mp hp.symm).symm
  | a :: b :: A, _, hl => simp at hl

/-- Every single event preserves mutual exclusion of the two message
slots: edits and attempts do not touch them, and `handleSubmit` always
clears one slot when it sets the other. -/
theorem stepForm_messages_exclusive (init : JsObject String) (st : FormState)
    (ev : FormEvent)
    (h : (st.successMessage.isSome && st.errorMessage.isSome) = false) :
    ((stepForm init st ev).successMessage.isSome &&
      (stepForm init st ev).errorMessage.isSome) = false := by
  cases ev with
  | edit v => exact h
  | attempt => exact h
  | settle outcome => cases outcome <;> simp [stepForm, handleSubmit]

/-- Mutual exclusion of the message slots is preserved along any event
sequence. -/
theorem foldl_messages_exclusive (init : JsObject String) :
    ∀ (events : List FormEvent) (st : FormState),
      (st.successMessage.isSome && st.errorMessage.isSome) = false →
      (((events.foldl (stepForm init) st).successMessage.isSome &&
        (events.foldl (stepForm init) st).errorMessage.isSome)) = false := by
  intro events
  induction events with
  | nil => intro st h; exact h
  | cons ev evs ih =>
      intro st h
      exact ih _ (stepForm_messages_exclusive init st ev h)

/-! ### The claims -/

/-- C1: the aggregate validation contract produced by
`generateValidationSchema` has an entry at a name exactly when some field
with that name declares a `validationRule`; every field without a rule
contributes no entry and names carried only by rule-less fields are
absent from the contract. -/
theorem c1_contract_exactly_ruled_fields {V : Type} (fields : List (Field V)) (n : String) :
    (generateValidationSchema fields n).isSome = true ↔
      ∃ f ∈ fields, f.name = n ∧ f.validation.isSome = true := by
  rw [generateValidationSchema_isSome, List.any_eq_true]
  simp

/-- C2: the initial-values mapping built by `FormGenerator` binds exactly
the names occurring in the field list, each to the empty string,
whatever the fields' kinds. -/
theorem c2_initial_values_empty_string {V : Type} (fields : List (Field V)) (n : String) :
    initialValues fields n = if ∃ f ∈ fields, f.name = n then some "" else none := by
  rw [initialValues_apply]
  by_cases h : ∃ f ∈ fields, f.name = n
  · rw [if_pos h, if_pos]
    rw [List.any_eq_true]
    obtain ⟨f, hf, hn⟩ := h
    exact ⟨f, hf, by simp [hn]⟩
  · rw [if_neg h, if_neg]
    rw [List.any_eq_true]
    rintro ⟨f, hf, hn⟩
    exact h ⟨f, hf, by simpa using hn⟩

/-- C3: when the external submit callback resolves, `handleSubmit`
displays the success message, resets the values back to the initial
values, and clears any prior error message. -/
theorem c3_success_resets_and_clears (init : JsObject String) (st : FormState) :
    (handleSubmit init .resolved st).successMessage = some successText ∧
    (handleSubmit init .resolved st).values = init ∧
    (handleSubmit init .resolved st).errorMessage = none :=
  ⟨rfl, rfl, rfl⟩

/-- C4: when the external submit callback rejects with any error detail,
`handleSubmit` displays the fixed generic failure message (independent of
the error), clears any prior success message, leaves the entered values
untouched, and releases the in-flight flag. -/
theorem c4_failure_keeps_values (init : JsObject String) (e : String) (st : FormState) :
    (handleSubmit init (.rejected e) st).errorMessage = some errorText ∧
    (handleSubmit init (.rejected e) st).successMessage = none ∧
    (handleSubmit init (.rejected e) st).values = st.values ∧
    (handleSubmit init (.rejected e) st).isSubmitting = false :=
  ⟨rfl, rfl, rfl, rfl⟩

/-- C5: the submit control is disabled exactly when the form is invalid
(Formik's validity flag against the aggregate contract is false), or the
values are unchanged from the initial values (not dirty), or a
submission is in flight; and a click while the form is invalid never
hands the values to the external submit callback. -/
theorem c5_submit_disabled_gate (isSubmitting isValid dirty : Bool)
    (values : JsObject String) :
    (submitDisabled isSubmitting isValid dirty = true ↔
      isValid = false ∨ dirty = false ∨ isSubmitting = true) ∧
    submitClick isSubmitting false dirty values = none := by
  constructor
  · cases isSubmitting <;> cases isValid <;> cases dirty <;> simp [submitDisabled]
  · simp [submitClick, submitDisabled]

/-- C6: a field whose `kind` is none of the eight recognized ones (the
literal `submit` pseudo-kind included) renders nothing — `FormField`
returns `none` rather than failing — and the surrounding fields of the
list render exactly as they would alone. -/
theorem c6_unknown_kind_renders_nothing {V : Type} (f : Field V)
    (pre post : List (Field V)) (h : f.type ∉ knownKinds) :
    FormField f = none ∧
      renderFields (pre ++ f :: post) =
        renderFields pre ++ none :: renderFields post := by
  have hf : FormField f = none := by
    rw [FormField]
    split <;> first
      | rfl
      | (exfalso; apply h; simp_all [knownKinds])
  exact ⟨hf, by simp [renderFields, hf]⟩

/-- Witness for C6 at the `submit` pseudo-field of `src/App.tsx`,
flanked by the `username` and `subscribe` descriptors. -/
theorem c6_witness :
    fieldSubmitPseudo.type ∉ knownKinds ∧
      (FormField fieldSubmitPseudo = none ∧
        renderFields ([fieldUsername] ++ fieldSubmitPseudo :: [fieldSubscribe]) =
          renderFields [fieldUsername] ++ none :: renderFields [fieldSubscribe]) :=
  ⟨by decide,
    c6_unknown_kind_renders_nothing fieldSubmitPseudo [fieldUsername] [fieldSubscribe]
      (by decide)⟩

/-- C7: when two descriptors share a name, both mappings still carry a
single well-defined entry at that name: the initial value is the empty
string (the last write, like every write), and the contract entry is the
rule of the last name-matching descriptor that declares one — last one
wins, and building the mappings is total, not a failure. -/
theorem c7_duplicate_names_last_wins {V : Type} (fields : List (Field V)) (n : String)
    (hdup : 1 < (fields.filter fun f => f.name == n).length) :
    initialValues fields n = some "" ∧
      generateValidationSchema fields n =
        ((fields.filter fun f => f.name == n && f.validation.isSome).getLast?).bind
          Field.validation := by
  refine ⟨?_, generateValidationSchema_apply fields n⟩
  rw [initialValues_apply]
  have hne : (fields.filter fun f => f.name == n) ≠ [] := by
    intro hnil
    rw [hnil] at hdup
    simp at hdup
  obtain ⟨f, hf⟩ := List.exists_mem_of_ne_nil _ hne
  have hmem := List.mem_filter.mp hf
  rw [if_pos]
  exact List.any_eq_true.mpr ⟨f, hmem.1, hmem.2⟩

/-- Witness for C7 on the two descriptors named `a`. -/
theorem c7_witness :
    1 < ((permCexA.filter fun f => f.name == "a").length) ∧
      (initialValues permCexA "a" = some "" ∧
        generateValidationSchema permCexA "a" =
          ((permCexA.filter fun f => f.name == "a" && f.validation.isSome).getLast?).bind
            Field.validation) :=
  ⟨by decide, c7_duplicate_names_last_wins permCexA "a" (by decide)⟩

/-- C8 fails as stated: with a name collision the contract is order
dependent.  Swapping the two descriptors named `a` (a permutation)
changes the contract, because the later rule wins. -/
theorem c8_counterexample :
    permCexA.Perm permCexB ∧
      generateValidationSchema permCexA ≠ generateValidationSchema permCexB := by
  constructor
  · exact List.Perm.swap dupFieldB dupFieldA []
  · intro h
    have h2 := congrFun h "a"
    have ha : generateValidationSchema permCexA "a" = some 1 := by decide
    have hb : generateValidationSchema permCexB "a" = some 0 := by decide
    rw [ha, hb] at h2
    exact absurd h2 (by decide)

/-- C8 (amended): when the fields that declare a `validationRule` have
pairwise distinct names — the uniqueness invariant the data model
already demands — the contract is order independent: every permutation
of the field list yields the same mapping. -/
theorem c8_schema_perm_invariant {V : Type} (l₁ l₂ : List (Field V))
    (hp : l₁.Perm l₂)
    (hnd : (l₁.filter fun f => f.validation.isSome).Pairwise fun f g => f.name ≠ g.name) :
    generateValidationSchema l₁ = generateValidationSchema l₂ := by
  funext n
  rw [generateValidationSchema_apply, generateValidationSchema_apply]
  have e1 : (l₁.filter fun f => f.name == n && f.validation.isSome)
      = (l₁.filter fun f => f.validation.isSome).filter fun f => f.name == n :=
    (List.filter_filter _ _).symm
  have hperm : (l₁.filter fun f => f.name == n && f.validation.isSome).Perm
      (l₂.filter fun f => f.name == n && f.validation.isSome) := hp.filter _
  have hlen : (l₁.filter fun f => f.name == n && f.validation.isSome).length ≤ 1 := by
    rw [e1]
    exact length_filter_name_le_one _ n hnd
  rw [perm_eq_of_length_le_one hperm hlen]

/-- Witness for the amended C8: swapping the `username` and `password`
descriptors of `src/App.tsx` leaves the contract unchanged. -/
theorem c8_witness :
    ([fieldUsername, fieldPassword].Perm [fieldPassword, fieldUsername]) ∧
      (([fieldUsername, fieldPassword].filter fun f => f.validation.isSome).Pairwise
        fun f g => f.name ≠ g.name) ∧
      generateValidationSchema [fieldUsername, fieldPassword] =
        generateValidationSchema [fieldPassword, fieldUsername] :=
  ⟨List.Perm.swap fieldPassword fieldUsername [], by decide,
    c8_schema_perm_invariant [fieldUsername, fieldPassword] [fieldPassword, fieldUsername]
      (List.Perm.swap fieldPassword fieldUsername []) (by decide)⟩

/-- C9: along every event sequence — edits, submit attempts, callback
settlements in any order — the success message and the error message are
never both set at once. -/
theorem c9_messages_never_both (init : JsObject String) (events : List FormEvent) :
    ((runForm init events).successMessage.isSome &&
      (runForm init events).errorMessage.isSome) = false :=
  foldl_messages_exclusive init events (initState init) rfl

/-- C10: `generateValidationSchema` never looks at a field's kind, so a
field that declares a rule but renders no control (unrecognized kind)
still puts its entry into the contract and therefore still gates
submission. -/
theorem c10_unrendered_rule_still_gates {V : Type} (fields : List (Field V)) (f : Field V)
    (hmem : f ∈ fields) (hrule : f.validation.isSome = true)
    (_hkind : FormField f = none) :
    (generateValidationSchema fields f.name).isSome = true := by
  rw [generateValidationSchema_isSome]
  exact List.any_eq_true.mpr ⟨f, hmem, by simp [hrule]⟩

/-- Witness for C10: a rule-carrying descriptor of kind `submit` renders
nothing yet its name is constrained by the contract. -/
theorem c10_witness :
    ghostField ∈ [fieldUsername, ghostField] ∧
      ghostField.validation.isSome = true ∧
      FormField ghostField = none ∧
      (generateValidationSchema [fieldUsername, ghostField] ghostField.name).isSome = true :=
  ⟨by decide, by decide, by decide,
    c10_unrendered_rule_still_gates [fieldUsername, ghostField] ghostField
      (by decide) (by decide) (by decide)⟩

end ConfigDrivenForms
